import Mathlib

/-! Verification of the experiment-orchestration harness in `src/main.py`
(forgetting-mechanism experiment driver).

The harness is embedded shallowly:
 - `ForgettingConfig` mirrors the configuration object built in `main`
   (src/main.py lines 122-129) from the parsed CLI arguments.
 - `runExperiments` mirrors `run_experiments` (src/main.py lines 50-78):
   it iterates the requested identifiers in order, reads the wall clock
   before and after each `runner.run_experiment` invocation, and stores
   `(completed := true, duration)` into a dict keyed by identifier.
   The wall clock (`time.time()`) is modelled as an environment-supplied
   trace `clock : Nat -> Rat` indexed by the number of reads so far; the
   runner (`ForgettingExperimentRunner(config).run_experiment`) is an
   environment-supplied function that either returns a payload or raises,
   modelled with `Except`.  Python exceptions propagate: there is no
   `try`/`except` in `run_experiments`, so a raising invocation aborts the
   loop, which the embedding mirrors with an `Except`-valued outcome.
   The trace also records, for each invocation, the configuration value the
   runner was constructed from, so that configuration-immutability claims
   can be stated.
 - Python dicts are embedded as association lists with insert-or-overwrite
   assignment (`assocSet`), which preserves the position of an existing key
   and appends new keys, exactly like dict insertion order in Python.
 - `generateReport` mirrors `generate_report` (src/main.py lines 80-107):
   it builds the report document, stores it at
   `os.path.join(config.output_dir, "experiment_report.json")`, and returns
   the console summary lines.  The byte-level behaviour of the
   `open(report_path, "w")` + `json.dump` write is modelled separately by
   `writeChunksFaulty` for the persistence-atomicity claim.
 - `makedirsExistOk` mirrors `os.makedirs(args.output_dir, exist_ok=True)`
   (src/main.py line 119) over an explicit directory/file state.
-/

/-- Python exceptions that the harness's collaborators can raise. -/
inductive PyErr where
  | unknownExperiment (id : String)
  | experimentError (msg : String)
  | ioError (msg : String)
deriving DecidableEq, Repr

/-- The configuration object (`ForgettingConfig`) built once in `main`
(src/main.py lines 122-129): the six user-facing fields. -/
structure ForgettingConfig where
  data_path : String
  output_dir : String
  num_users : Int
  temporal_split : Bool
  test_days : Int
  seed : Int
deriving DecidableEq, Repr

/-- The parsed CLI arguments (src/main.py lines 20-48), with the
argparse defaults. -/
structure Args where
  data_path : String := "./ml-100k"
  output_dir : String := "./results"
  experiments : List String :=
    ["baseline_comparison", "temporal_evaluation", "parameter_sensitivity",
     "privacy_impact", "scalability_test", "user_segmentation"]
  num_users : Int := 50
  temporal_split : Bool := false
  test_days : Int := 30
  seed : Int := 42
deriving DecidableEq, Repr

/-- Construction of the configuration from the arguments
(src/main.py lines 122-129). -/
def mkConfig (args : Args) : ForgettingConfig :=
  { data_path := args.data_path
    output_dir := args.output_dir
    num_users := args.num_users
    temporal_split := args.temporal_split
    test_days := args.test_days
    seed := args.seed }

/-- One value of the per-experiment dict built at src/main.py lines 73-76:
the literal `\x7b'completed': True, 'duration': duration\x7d`. -/
structure ResultEntry where
  completed : Bool
  duration : ℚ
deriving DecidableEq, Repr

/-- Python dict lookup on an association list (first matching key). -/
def assocLookup {α : Type} : List (String × α) → String → Option α
  | [], _ => none
  | p :: rest, k => if p.1 = k then some p.2 else assocLookup rest k

/-- Python dict assignment `d[k] = v`: overwrite in place when the key is
present (keeping its position in insertion order), append otherwise. -/
def assocSet {α : Type} : List (String × α) → String → α → List (String × α)
  | [], k, v => [(k, v)]
  | p :: rest, k, v =>
    if p.1 = k then (k, v) :: rest else p :: assocSet rest k v

/-- First occurrences of a list's elements, skipping those already seen. -/
def dedupSeen (seen : List String) : List String → List String
  | [] => []
  | e :: rest =>
    if e ∈ seen then dedupSeen seen rest
    else e :: dedupSeen (seen ++ [e]) rest

/-- The distinct elements of a list in first-occurrence order: the key set,
in insertion order, of a dict filled by iterating the list. -/
def dedupFirst (l : List String) : List String := dedupSeen [] l

/-- Payload returned by an experiment: a JSON-like value (the harness at
src/main.py line 65 binds it and never uses it). -/
inductive Json where
  | str (s : String)
  | num (q : ℚ)
  | bool (b : Bool)
  | obj (fields : List (String × Json))

instance {ε α : Type} [DecidableEq ε] [DecidableEq α] : DecidableEq (Except ε α)
  | Except.error e, Except.error f =>
    if h : e = f then Decidable.isTrue (congrArg Except.error h)
    else Decidable.isFalse (fun hc => h (Except.error.inj hc))
  | Except.error _, Except.ok _ => Decidable.isFalse (fun hc => Except.noConfusion hc)
  | Except.ok _, Except.error _ => Decidable.isFalse (fun hc => Except.noConfusion hc)
  | Except.ok x, Except.ok y =>
    if h : x = y then Decidable.isTrue (congrArg Except.ok h)
    else Decidable.isFalse (fun hc => h (Except.ok.inj hc))

/-- What one call to `run_experiments` did: the sequence of
`runner.run_experiment` invocations (each paired with the configuration the
runner was constructed from), and either the returned results dict or the
exception that propagated out. -/
structure RunTrace where
  calls : List (ForgettingConfig × String)
  outcome : Except PyErr (List (String × ResultEntry))

/-- The loop of `run_experiments` (src/main.py lines 61-78).  `t` counts
`time.time()` reads so far; each successful iteration reads the clock at
`t` (start) and `t + 1` (end) and stores
`(completed := true, duration := end - start)`.  A raising invocation makes
the exception propagate (no entry stored, later identifiers not reached). -/
def runExperimentsAux (runner : String → Except PyErr Json)
    (cfg : ForgettingConfig) (clock : Nat → ℚ) :
    Nat → List (String × ResultEntry) → List (ForgettingConfig × String) →
    List String → RunTrace
  | _, acc, calls, [] => ⟨calls, Except.ok acc⟩
  | t, acc, calls, e :: rest =>
    match runner e with
    | Except.error err => ⟨calls ++ [(cfg, e)], Except.error err⟩
    | Except.ok _ =>
      runExperimentsAux runner cfg clock (t + 2)
        (assocSet acc e ⟨true, clock (t + 1) - clock t⟩)
        (calls ++ [(cfg, e)]) rest

/-- Model of `run_experiments(config, experiments)` (src/main.py lines 50-78): the
runner is constructed once from the configuration (line 55), then the loop
runs.  `mkRunner` models the `ForgettingExperimentRunner` constructor. -/
def runExperiments (mkRunner : ForgettingConfig → String → Except PyErr Json)
    (cfg : ForgettingConfig) (clock : Nat → ℚ) (experiments : List String) :
    RunTrace :=
  runExperimentsAux (mkRunner cfg) cfg clock 0 [] [] experiments

/-- The fixed set of experiment identifiers the CLI requests by default
(src/main.py lines 30-34); per the spec these are also the identifiers the
external runner knows. -/
def knownExperiments : List String :=
  ["baseline_comparison", "temporal_evaluation", "parameter_sensitivity",
   "privacy_impact", "scalability_test", "user_segmentation"]

/-- Modelled from the spec: `ForgettingExperimentRunner.run_experiment` lives
in the external module `experiment_runner`, which is not under src/.  Per
spec sections 4.2 and 7, an identifier outside the known registry fails with
an `UnknownExperimentError`; a known identifier returns its payload. -/
def specRunner (payload : Json) (_cfg : ForgettingConfig) (e : String) :
    Except PyErr Json :=
  if e ∈ knownExperiments then Except.ok payload
  else Except.error (PyErr.unknownExperiment e)

/-- Model of `os.path.join(a, b)` for a relative second component: drop an empty
first component, avoid doubling a trailing separator. -/
def osPathJoin (a b : String) : String :=
  if a = "" then b
  else if a.endsWith "/" then a ++ b
  else a ++ "/" ++ b

/-- The fixed report location
`os.path.join(config.output_dir, "experiment_report.json")`
(src/main.py line 97). -/
def reportPath (cfg : ForgettingConfig) : String :=
  osPathJoin cfg.output_dir "experiment_report.json"

/-- Lookup of a key in a JSON object value. -/
def jsonLookup : Json → String → Option Json
  | Json.obj l, k => assocLookup l k
  | _, _ => none

/-- The `configuration` object of the report (src/main.py lines 85-92):
exactly the six configuration fields. -/
def configJson (c : ForgettingConfig) : Json :=
  Json.obj
    [("data_path", Json.str c.data_path),
     ("output_dir", Json.str c.output_dir),
     ("num_users", Json.num (c.num_users : ℚ)),
     ("temporal_split", Json.bool c.temporal_split),
     ("test_days", Json.num (c.test_days : ℚ)),
     ("seed", Json.num (c.seed : ℚ))]

/-- One `experiments` entry of the report: the dict stored at
src/main.py lines 73-76, serialized as JSON. -/
def entryJson (r : ResultEntry) : Json :=
  Json.obj
    [("completed", Json.bool r.completed),
     ("duration", Json.num r.duration)]

/-- The full report document (src/main.py lines 84-94). -/
def reportJson (cfg : ForgettingConfig)
    (results : List (String × ResultEntry)) : Json :=
  Json.obj
    [("configuration", configJson cfg),
     ("experiments", Json.obj (results.map (fun p => (p.1, entryJson p.2))))]

def jsonAsStr : Json → Option String
  | Json.str s => some s
  | _ => none

def jsonAsBool : Json → Option Bool
  | Json.bool b => some b
  | _ => none

def jsonAsInt : Json → Option Int
  | Json.num q => if q.den = 1 then some q.num else none
  | _ => none

/-- Reading the persisted configuration section back into a configuration
value (the round-trip direction of the report). -/
def decodeConfig (j : Json) : Option ForgettingConfig := do
  let dp ← jsonAsStr (← jsonLookup j "data_path")
  let od ← jsonAsStr (← jsonLookup j "output_dir")
  let nu ← jsonAsInt (← jsonLookup j "num_users")
  let ts ← jsonAsBool (← jsonLookup j "temporal_split")
  let td ← jsonAsInt (← jsonLookup j "test_days")
  let sd ← jsonAsInt (← jsonLookup j "seed")
  pure ⟨dp, od, nu, ts, td, sd⟩

/-- The last two decimal digits of a natural number, as a two-character
string. -/
def twoDigits (n : Nat) : String :=
  String.mk [Nat.digitChar (n / 10 % 10), Nat.digitChar (n % 10)]

/-- Rendering of a duration with two digits after the decimal point, the
model of the format specifier `:.2f` at src/main.py line 106 (rounding to
the nearest hundredth). -/
def fmt2 (q : ℚ) : String :=
  (if q < 0 then "-" else "")
    ++ toString ((Rat.floor (|q| * 100 + 1 / 2)).toNat / 100)
    ++ "." ++ twoDigits (Rat.floor (|q| * 100 + 1 / 2)).toNat

/-- One console summary line (src/main.py line 106). -/
def summaryLine (e : String) (r : ResultEntry) : String :=
  "- " ++ e ++ ": " ++ (if r.completed then "Completed" else "Failed")
    ++ " in " ++ fmt2 r.duration ++ " seconds"

/-- Model of `generate_report(config, experiment_results)` (src/main.py lines 80-107)
at the level of whole documents: stores the report JSON at the fixed report
path in a path-to-document store, and produces the console summary lines in
dict iteration order (src/main.py lines 103-107). -/
def generateReport (cfg : ForgettingConfig)
    (results : List (String × ResultEntry)) (fs : List (String × Json)) :
    List (String × Json) × List String :=
  (assocSet fs (reportPath cfg) (reportJson cfg results),
   results.map (fun p => summaryLine p.1 p.2))

/-- The part of `main` after configuration construction (src/main.py lines
134-137): run the experiments, then generate the report.  A Python exception
escaping `run_experiments` skips report generation entirely. -/
def runAndReport (mkRunner : ForgettingConfig → String → Except PyErr Json)
    (cfg : ForgettingConfig) (clock : Nat → ℚ) (experiments : List String)
    (fs : List (String × Json)) :
    Except PyErr (List (String × Json) × List String) :=
  match (runExperiments mkRunner cfg clock experiments).outcome with
  | Except.error err => Except.error err
  | Except.ok results => Except.ok (generateReport cfg results fs)

/-- Serialized text of one `experiments` entry of the report. -/
def serializeEntry (p : String × ResultEntry) : String :=
  "\"" ++ p.1 ++ "\": \x7b\"completed\": "
    ++ (if p.2.completed then "true" else "false")
    ++ ", \"duration\": " ++ toString p.2.duration ++ "\x7d"

/-- The serialized report document, split at the boundaries at which
`json.dump` emits it to the already-open file (src/main.py lines 98-99):
a prefix of this chunk list is what a write interrupted by an I/O failure
leaves behind. -/
def reportChunks (cfg : ForgettingConfig)
    (results : List (String × ResultEntry)) : List String :=
  ["\x7b\"configuration\": \x7b\"data_path\": \"" ++ cfg.data_path ++ "\"",
   ", \"output_dir\": \"" ++ cfg.output_dir ++ "\"",
   ", \"num_users\": " ++ toString cfg.num_users,
   ", \"temporal_split\": " ++ (if cfg.temporal_split then "true" else "false"),
   ", \"test_days\": " ++ toString cfg.test_days,
   ", \"seed\": " ++ toString cfg.seed ++ "\x7d",
   ", \"experiments\": \x7b"]
    ++ results.map serializeEntry
    ++ ["\x7d\x7d"]

/-- The full serialized report document. -/
def serializeReport (cfg : ForgettingConfig)
    (results : List (String × ResultEntry)) : String :=
  String.join (reportChunks cfg results)

/-- Byte-level model of `open(report_path, "w")` followed by `json.dump`
(src/main.py lines 98-99) against a path-to-contents store: opening in
write mode truncates the file at the path at once, then the chunks are
written sequentially.  `fault` is the number of chunk writes the
environment lets succeed before raising an `IOError`; `fault` at least the
number of chunks means the write completes without fault.  The first
component is the store afterwards, the second the Python outcome. -/
def writeChunksFaulty (fs : List (String × String)) (p : String)
    (chunks : List String) (fault : Nat) :
    List (String × String) × Except PyErr Unit :=
  (assocSet fs p (String.join (chunks.take fault)),
   if chunks.length ≤ fault then Except.ok ()
   else Except.error (PyErr.ioError "write interrupted"))

/-- Filesystem state seen by `os.makedirs`: which paths exist as
directories and which as plain files. -/
structure FSDirs where
  dirs : List String
  files : List String
deriving DecidableEq, Repr

/-- The path together with all its ancestors, outermost first. -/
def parentChain (p : String) : List String :=
  (List.range (p.splitOn "/").length).map
    (fun i => String.intercalate "/" ((p.splitOn "/").take (i + 1)))

/-- Adding a directory if it is not already present. -/
def insertDir (ds : List String) (d : String) : List String :=
  if d ∈ ds then ds else ds ++ [d]

/-- Model of `os.makedirs(p, exist_ok=True)` (src/main.py line 119): creates the
directory and any missing ancestors; an already-existing directory is not
an error, but a path component existing as a plain file is. -/
def makedirsExistOk (fs : FSDirs) (p : String) : Except PyErr FSDirs :=
  if (parentChain p).any (fun d => d ∈ fs.files) then
    Except.error (PyErr.ioError "path component exists as a file")
  else
    Except.ok { fs with dirs := (parentChain p).foldl insertDir fs.dirs }

/-! ## Helper lemmas -/

theorem except_ok_of_isOk {ε α : Type} {e : Except ε α} (h : e.isOk = true) :
    ∃ v, e = Except.ok v := by
  cases e with
  | error a => simp [Except.isOk, Except.toBool] at h
  | ok v => exact ⟨v, rfl⟩

theorem assocSet_map_fst {α : Type} (l : List (String × α)) (k : String) (v : α) :
    (assocSet l k v).map Prod.fst
      = if k ∈ l.map Prod.fst then l.map Prod.fst else l.map Prod.fst ++ [k] := by
  induction l with
  | nil => simp [assocSet]
  | cons p rest ih =>
    by_cases hp : p.1 = k
    · simp [assocSet, hp]
    · have hne : ¬ k = p.1 := fun h => hp h.symm
      by_cases hm : k ∈ rest.map Prod.fst
      · simp [assocSet, hp, ih, hm, hne, List.mem_cons]
      · simp [assocSet, hp, ih, hm, hne, List.mem_cons]

theorem assocLookup_assocSet_self {α : Type} (l : List (String × α)) (k : String) (v : α) :
    assocLookup (assocSet l k v) k = some v := by
  induction l with
  | nil => simp [assocSet, assocLookup]
  | cons p rest ih =>
    by_cases hp : p.1 = k
    · simp [assocSet, hp, assocLookup]
    · simp [assocSet, hp, assocLookup, ih]

theorem assocLookup_assocSet_ne {α : Type} (l : List (String × α)) (k p : String) (v : α)
    (h : p ≠ k) : assocLookup (assocSet l k v) p = assocLookup l p := by
  have hkp : ¬ k = p := fun hc => h hc.symm
  induction l with
  | nil => simp [assocSet, assocLookup, hkp]
  | cons q rest ih =>
    by_cases hq : q.1 = k
    · have hqp : ¬ q.1 = p := by rw [hq]; exact hkp
      simp [assocSet, hq, assocLookup, hkp, hqp]
    · by_cases hqp : q.1 = p
      · simp only [assocSet, if_neg hq]
        simp [assocLookup, hqp]
      · simp [assocSet, hq, assocLookup, hqp, ih]

theorem assocSet_forall {α : Type} {P : String × α → Prop} {l : List (String × α)}
    {k : String} {v : α} (hl : ∀ x ∈ l, P x) (hv : P (k, v)) :
    ∀ x ∈ assocSet l k v, P x := by
  induction l with
  | nil =>
    intro x hx
    simp only [assocSet, List.mem_singleton] at hx
    exact hx ▸ hv
  | cons p rest ih =>
    intro x hx
    simp only [assocSet] at hx
    by_cases hp : p.1 = k
    · rw [if_pos hp] at hx
      rcases List.mem_cons.mp hx with hx | hx
      · exact hx ▸ hv
      · exact hl x (by simp [hx])
    · rw [if_neg hp] at hx
      rcases List.mem_cons.mp hx with hx | hx
      · exact hl x (by simp [hx])
      · exact ih (fun y hy => hl y (by simp [hy])) x hx

theorem assocLookup_of_mem_fst {α : Type} (l : List (String × α)) (k : String)
    (h : k ∈ l.map Prod.fst) : ∃ v, assocLookup l k = some v := by
  induction l with
  | nil => simp at h
  | cons p rest ih =>
    by_cases hp : p.1 = k
    · exact ⟨p.2, by simp [assocLookup, hp]⟩
    · rw [List.map_cons] at h
      have : k ∈ rest.map Prod.fst := by
        rcases List.mem_cons.mp h with h1 | h1
        · exact absurd h1.symm hp
        · exact h1
      obtain ⟨v, hv⟩ := ih this
      exact ⟨v, by simp [assocLookup, hp, hv]⟩

theorem assocLookup_map_value {α β : Type} (f : α → β) (l : List (String × α)) (k : String) :
    assocLookup (l.map (fun p => (p.1, f p.2))) k = (assocLookup l k).map f := by
  induction l with
  | nil => rfl
  | cons p rest ih =>
    by_cases hp : p.1 = k <;> simp [assocLookup, hp, ih]

theorem mem_dedupSeen (x : String) : ∀ (l seen : List String),
    x ∈ dedupSeen seen l ↔ x ∈ l ∧ x ∉ seen := by
  intro l
  induction l with
  | nil => intro seen; simp [dedupSeen]
  | cons e rest ih =>
    intro seen
    by_cases he : e ∈ seen
    · rw [dedupSeen, if_pos he, ih]
      constructor
      · rintro ⟨h1, h2⟩; exact ⟨List.mem_cons.mpr (Or.inr h1), h2⟩
      · rintro ⟨h1, h2⟩
        rcases List.mem_cons.mp h1 with h1 | h1
        · exact absurd (h1 ▸ he) h2
        · exact ⟨h1, h2⟩
    · rw [dedupSeen, if_neg he]
      constructor
      · intro hx
        rcases List.mem_cons.mp hx with hx | hx
        · exact ⟨List.mem_cons.mpr (Or.inl hx), hx ▸ he⟩
        · rw [ih] at hx
          refine ⟨List.mem_cons.mpr (Or.inr hx.1), fun hc => hx.2 (by simp [hc])⟩
      · rintro ⟨h1, h2⟩
        rcases List.mem_cons.mp h1 with h1 | h1
        · exact List.mem_cons.mpr (Or.inl h1)
        · by_cases hxe : x = e
          · exact List.mem_cons.mpr (Or.inl hxe)
          · refine List.mem_cons.mpr (Or.inr ?_)
            rw [ih]
            exact ⟨h1, by simp [h2, hxe]⟩

theorem aux_calls_cfg (runner : String → Except PyErr Json) (cfg : ForgettingConfig)
    (clock : Nat → ℚ) (exps : List String) :
    ∀ t acc calls, (∀ p ∈ calls, p.1 = cfg) →
      ∀ p ∈ (runExperimentsAux runner cfg clock t acc calls exps).calls, p.1 = cfg := by
  induction exps with
  | nil => intro t acc calls h p hp; exact h p hp
  | cons e rest ih =>
    intro t acc calls h p hp
    cases hr : runner e with
    | error err =>
      simp only [runExperimentsAux, hr] at hp
      rcases List.mem_append.mp hp with hp | hp
      · exact h p hp
      · rw [List.mem_singleton.mp hp]
    | ok v =>
      simp only [runExperimentsAux, hr] at hp
      refine ih (t + 2) _ _ ?_ p hp
      intro q hq
      rcases List.mem_append.mp hq with hq | hq
      · exact h q hq
      · rw [List.mem_singleton.mp hq]

theorem aux_success (runner : String → Except PyErr Json) (cfg : ForgettingConfig)
    (clock : Nat → ℚ) (exps : List String) :
    ∀ t acc calls, (∀ x ∈ exps, (runner x).isOk = true) →
      ∃ results, runExperimentsAux runner cfg clock t acc calls exps
        = ⟨calls ++ exps.map (fun x => (cfg, x)), Except.ok results⟩ := by
  induction exps with
  | nil => intro t acc calls _; exact ⟨acc, by simp [runExperimentsAux]⟩
  | cons e rest ih =>
    intro t acc calls h
    obtain ⟨v, hv⟩ := except_ok_of_isOk (h e (List.mem_cons.mpr (Or.inl rfl)))
    obtain ⟨results, hres⟩ := ih (t + 2) (assocSet acc e ⟨true, clock (t + 1) - clock t⟩)
        (calls ++ [(cfg, e)]) (fun x hx => h x (List.mem_cons.mpr (Or.inr hx)))
    refine ⟨results, ?_⟩
    simp only [runExperimentsAux, hv, hres]
    simp

theorem aux_keys (runner : String → Except PyErr Json) (cfg : ForgettingConfig)
    (clock : Nat → ℚ) (exps : List String) :
    ∀ t acc calls results,
      (runExperimentsAux runner cfg clock t acc calls exps).outcome = Except.ok results →
      results.map Prod.fst = acc.map Prod.fst ++ dedupSeen (acc.map Prod.fst) exps := by
  induction exps with
  | nil =>
    intro t acc calls results h
    simp only [runExperimentsAux] at h
    cases Except.ok.inj h
    simp [dedupSeen]
  | cons e rest ih =>
    intro t acc calls results h
    cases hr : runner e with
    | error err => rw [runExperimentsAux] at h; simp [hr] at h
    | ok v =>
      rw [runExperimentsAux] at h
      simp only [hr] at h
      have hkeys := ih (t + 2) (assocSet acc e ⟨true, clock (t + 1) - clock t⟩)
          (calls ++ [(cfg, e)]) results h
      rw [assocSet_map_fst] at hkeys
      by_cases hm : e ∈ acc.map Prod.fst
      · rw [if_pos hm] at hkeys
        rw [dedupSeen, if_pos hm]
        exact hkeys
      · rw [if_neg hm] at hkeys
        rw [dedupSeen, if_neg hm]
        rw [hkeys, List.append_assoc]
        simp

theorem aux_completed (runner : String → Except PyErr Json) (cfg : ForgettingConfig)
    (clock : Nat → ℚ) (exps : List String) :
    ∀ t acc calls results,
      (runExperimentsAux runner cfg clock t acc calls exps).outcome = Except.ok results →
      (∀ p ∈ acc, p.2.completed = true) →
      ∀ p ∈ results, p.2.completed = true := by
  induction exps with
  | nil =>
    intro t acc calls results h hacc
    simp only [runExperimentsAux] at h
    cases Except.ok.inj h
    exact hacc
  | cons e rest ih =>
    intro t acc calls results h hacc
    cases hr : runner e with
    | error err => rw [runExperimentsAux] at h; simp [hr] at h
    | ok v =>
      rw [runExperimentsAux] at h
      simp only [hr] at h
      refine ih (t + 2) _ _ results h ?_
      exact assocSet_forall hacc rfl

theorem aux_nonneg (runner : String → Except PyErr Json) (cfg : ForgettingConfig)
    (clock : Nat → ℚ) (hmono : ∀ i j, i ≤ j → clock i ≤ clock j) (exps : List String) :
    ∀ t acc calls results,
      (runExperimentsAux runner cfg clock t acc calls exps).outcome = Except.ok results →
      (∀ p ∈ acc, 0 ≤ p.2.duration) →
      ∀ p ∈ results, 0 ≤ p.2.duration := by
  induction exps with
  | nil =>
    intro t acc calls results h hacc
    simp only [runExperimentsAux] at h
    cases Except.ok.inj h
    exact hacc
  | cons e rest ih =>
    intro t acc calls results h hacc
    cases hr : runner e with
    | error err => rw [runExperimentsAux] at h; simp [hr] at h
    | ok v =>
      rw [runExperimentsAux] at h
      simp only [hr] at h
      refine ih (t + 2) _ _ results h ?_
      refine assocSet_forall hacc ?_
      exact sub_nonneg.mpr (hmono t (t + 1) (Nat.le_succ t))

theorem aux_error (runner : String → Except PyErr Json) (cfg : ForgettingConfig)
    (clock : Nat → ℚ) (post : List String) (e : String) (err : PyErr)
    (he : runner e = Except.error err) :
    ∀ (pre : List String) t acc calls, (∀ x ∈ pre, (runner x).isOk = true) →
      runExperimentsAux runner cfg clock t acc calls (pre ++ e :: post)
        = ⟨calls ++ (pre ++ [e]).map (fun x => (cfg, x)), Except.error err⟩ := by
  intro pre
  induction pre with
  | nil =>
    intro t acc calls _
    simp [runExperimentsAux, he]
  | cons x rest ih =>
    intro t acc calls h
    obtain ⟨v, hv⟩ := except_ok_of_isOk (h x (List.mem_cons.mpr (Or.inl rfl)))
    have hrec := ih (t + 2) (assocSet acc x ⟨true, clock (t + 1) - clock t⟩)
        (calls ++ [(cfg, x)]) (fun y hy => h y (List.mem_cons.mpr (Or.inr hy)))
    rw [List.cons_append, runExperimentsAux]
    simp only [hv, hrec]
    congr 1
    simp [List.map_append, List.append_assoc]

theorem aux_append_overwrite (runner : String → Except PyErr Json) (cfg : ForgettingConfig)
    (clock : Nat → ℚ) (e : String) (exps : List String) :
    ∀ t acc calls cs results,
      runExperimentsAux runner cfg clock t acc calls exps = ⟨cs, Except.ok results⟩ →
      (runner e).isOk = true →
      runExperimentsAux runner cfg clock t acc calls (exps ++ [e])
        = ⟨cs ++ [(cfg, e)],
           Except.ok (assocSet results e
             ⟨true, clock (t + 2 * exps.length + 1) - clock (t + 2 * exps.length)⟩)⟩ := by
  induction exps with
  | nil =>
    intro t acc calls cs results h he
    obtain ⟨v, hv⟩ := except_ok_of_isOk he
    simp only [runExperimentsAux] at h
    cases h
    simp [runExperimentsAux, hv]
  | cons x rest ih =>
    intro t acc calls cs results h he
    cases hx : runner x with
    | error err => rw [runExperimentsAux] at h; simp [hx] at h
    | ok v =>
      rw [runExperimentsAux] at h
      simp only [hx] at h
      have := ih (t + 2) (assocSet acc x ⟨true, clock (t + 1) - clock t⟩)
          (calls ++ [(cfg, x)]) cs results h he
      rw [List.cons_append, runExperimentsAux]
      simp only [hx, this]
      have harith : t + 2 + 2 * rest.length = t + 2 * (x :: rest).length := by
        simp [List.length_cons]; ring
      rw [harith]

theorem mem_insertDir_of_mem {ds : List String} {d : String} (x : String) (h : d ∈ ds) :
    d ∈ insertDir ds x := by
  unfold insertDir
  by_cases hx : x ∈ ds <;> simp [hx, h]

theorem self_mem_insertDir (ds : List String) (x : String) : x ∈ insertDir ds x := by
  unfold insertDir
  by_cases hx : x ∈ ds <;> simp [hx]

theorem mem_foldl_insertDir (l : List String) :
    ∀ ds d, d ∈ ds → d ∈ l.foldl insertDir ds := by
  induction l with
  | nil => intro ds d h; exact h
  | cons x rest ih =>
    intro ds d h
    exact ih (insertDir ds x) d (mem_insertDir_of_mem x h)

theorem mem_foldl_insertDir_self (l : List String) :
    ∀ ds d, d ∈ l → d ∈ l.foldl insertDir ds := by
  induction l with
  | nil => intro ds d h; simp at h
  | cons x rest ih =>
    intro ds d h
    rcases List.mem_cons.mp h with h | h
    · exact mem_foldl_insertDir rest (insertDir ds x) d (h ▸ self_mem_insertDir ds x)
    · exact ih (insertDir ds x) d h

theorem foldl_insertDir_no_new (l : List String) :
    ∀ ds, (∀ d ∈ l, d ∈ ds) → l.foldl insertDir ds = ds := by
  induction l with
  | nil => intro ds _; rfl
  | cons x rest ih =>
    intro ds h
    have hx : insertDir ds x = ds := by
      unfold insertDir
      rw [if_pos (h x (List.mem_cons.mpr (Or.inl rfl)))]
    rw [List.foldl_cons, hx]
    exact ih ds (fun d hd => h d (List.mem_cons.mpr (Or.inr hd)))

theorem decodeConfig_configJson (c : ForgettingConfig) :
    decodeConfig (configJson c) = some c := by
  simp [decodeConfig, configJson, jsonLookup, assocLookup, jsonAsStr, jsonAsBool, jsonAsInt,
        Rat.num_intCast, Rat.den_intCast]

theorem twoDigits_length (n : Nat) : (twoDigits n).length = 2 := rfl

theorem fmt2_two_decimals (q : ℚ) :
    ∃ a b, fmt2 q = a ++ "." ++ b ∧ b.length = 2 :=
  ⟨(if q < 0 then "-" else "") ++ toString ((Rat.floor (|q| * 100 + 1 / 2)).toNat / 100),
   twoDigits (Rat.floor (|q| * 100 + 1 / 2)).toNat, rfl, rfl⟩

/-! ## Claim theorems -/

/-- A runner behaviour that succeeds on every identifier. -/
def okRunner (_cfg : ForgettingConfig) (_e : String) : Except PyErr Json :=
  Except.ok (Json.bool true)

/-- A runner behaviour whose experiment "broken_experiment" raises an
internal experiment error. -/
def cexRunner (_cfg : ForgettingConfig) (e : String) : Except PyErr Json :=
  if e = "broken_experiment" then Except.error (PyErr.experimentError "boom")
  else Except.ok (Json.bool true)

/-- C1 counterexample: `run_experiments` has no `try`/`except` around the
runner invocation (src/main.py lines 61-78), so when the invocation for the
middle identifier raises, the exception propagates out of `run_experiments`
(the outcome is the error, not a mapping with a Failed entry) and the third
identifier is never invoked — contradicting the claim that the failure is
recorded and never propagated and that every remaining identifier still
executes. -/
theorem run_experiments_cex_failure_propagates :
    ((runExperiments cexRunner (mkConfig {}) (fun _ => (0 : ℚ))
        ["baseline_comparison", "broken_experiment", "temporal_evaluation"]).outcome
      = Except.error (PyErr.experimentError "boom")) ∧
    ((runExperiments cexRunner (mkConfig {}) (fun _ => (0 : ℚ))
        ["baseline_comparison", "broken_experiment", "temporal_evaluation"]).calls.map Prod.snd
      = ["baseline_comparison", "broken_experiment"]) := by
  constructor
  · with_unfolding_all rfl
  · with_unfolding_all decide

/-- C1 (amended): if the Runner Adapter invocation raises for some
identifier, the exception propagates out of `run_experiments`: no outcome is
recorded for that identifier, and the remaining identifiers in the sequence
are not invoked at all. -/
theorem run_experiments_failure_aborts_rest
    (mkRunner : ForgettingConfig → String → Except PyErr Json) (cfg : ForgettingConfig)
    (clock : Nat → ℚ) (pre post : List String) (e : String) (err : PyErr)
    (hpre : ∀ x ∈ pre, (mkRunner cfg x).isOk = true)
    (he : mkRunner cfg e = Except.error err) :
    runExperiments mkRunner cfg clock (pre ++ e :: post)
      = ⟨(pre ++ [e]).map (fun x => (cfg, x)), Except.error err⟩ := by
  unfold runExperiments
  have := aux_error (mkRunner cfg) cfg clock post e err he pre 0 [] [] hpre
  simpa using this

theorem run_experiments_failure_aborts_rest_witness :
    ((∀ x ∈ ["baseline_comparison"], (cexRunner (mkConfig {}) x).isOk = true) ∧
      cexRunner (mkConfig {}) "broken_experiment"
        = Except.error (PyErr.experimentError "boom")) ∧
    runExperiments cexRunner (mkConfig {}) (fun _ => (0 : ℚ))
        (["baseline_comparison"] ++ "broken_experiment" :: ["temporal_evaluation"])
      = ⟨(["baseline_comparison"] ++ ["broken_experiment"]).map (fun x => (mkConfig {}, x)),
         Except.error (PyErr.experimentError "boom")⟩ :=
  ⟨⟨by decide, by rfl⟩,
   run_experiments_failure_aborts_rest cexRunner (mkConfig {}) (fun _ => (0 : ℚ))
     ["baseline_comparison"] ["temporal_evaluation"] "broken_experiment"
     (PyErr.experimentError "boom") (by decide) (by rfl)⟩

/-- C2 counterexample: with the runner modelled from the spec (unknown
identifier raises `UnknownExperimentError`), requesting an unknown
identifier makes the exception propagate out of `run_experiments` — the run
crashes instead of recording a Failed outcome, and the remaining requested
experiment is never invoked. -/
theorem unknown_experiment_cex_crashes :
    ((runExperiments (specRunner (Json.bool true)) (mkConfig {}) (fun _ => (0 : ℚ))
        ["baseline_comparison", "unknown_experiment", "temporal_evaluation"]).outcome
      = Except.error (PyErr.unknownExperiment "unknown_experiment")) ∧
    ((runExperiments (specRunner (Json.bool true)) (mkConfig {}) (fun _ => (0 : ℚ))
        ["baseline_comparison", "unknown_experiment", "temporal_evaluation"]).calls.map Prod.snd
      = ["baseline_comparison", "unknown_experiment"]) := by
  constructor
  · with_unfolding_all rfl
  · with_unfolding_all decide

/-- C2 (amended): for a request sequence containing an identifier outside
the known registry (with the spec-modelled runner raising
`UnknownExperimentError` on it), the error propagates out of
`run_experiments`: the unknown identifier gets no recorded outcome and the
identifiers after it are never invoked. -/
theorem unknown_experiment_error_propagates
    (payload : Json) (cfg : ForgettingConfig) (clock : Nat → ℚ)
    (pre post : List String) (u : String)
    (hpre : ∀ x ∈ pre, x ∈ knownExperiments) (hu : u ∉ knownExperiments) :
    runExperiments (specRunner payload) cfg clock (pre ++ u :: post)
      = ⟨(pre ++ [u]).map (fun x => (cfg, x)),
         Except.error (PyErr.unknownExperiment u)⟩ := by
  unfold runExperiments
  have he : specRunner payload cfg u = Except.error (PyErr.unknownExperiment u) := by
    simp [specRunner, hu]
  have := aux_error (specRunner payload cfg) cfg clock post u
      (PyErr.unknownExperiment u) he pre 0 [] []
      (fun x hx => by simp [specRunner, hpre x hx, Except.isOk, Except.toBool])
  simpa using this

theorem unknown_experiment_error_propagates_witness :
    ((∀ x ∈ ["baseline_comparison"], x ∈ knownExperiments) ∧
      "unknown_experiment" ∉ knownExperiments) ∧
    runExperiments (specRunner (Json.bool true)) (mkConfig {}) (fun _ => (0 : ℚ))
        (["baseline_comparison"] ++ "unknown_experiment" :: ["temporal_evaluation"])
      = ⟨(["baseline_comparison"] ++ ["unknown_experiment"]).map (fun x => (mkConfig {}, x)),
         Except.error (PyErr.unknownExperiment "unknown_experiment")⟩ :=
  ⟨⟨by decide, by decide⟩,
   unknown_experiment_error_propagates (Json.bool true) (mkConfig {}) (fun _ => (0 : ℚ))
     ["baseline_comparison"] ["temporal_evaluation"] "unknown_experiment"
     (by decide) (by decide)⟩

/-- C4 counterexample: `run_experiments` computes the duration as the
difference of two `time.time()` readings (src/main.py lines 63-68), and the
wall clock is not monotonic: on a clock trace that steps backwards between
the start and end reads, the recorded duration is negative — contradicting
the claim that every recorded duration is non-negative. -/
theorem duration_cex_negative_on_clock_step_back :
    ((runExperiments okRunner (mkConfig {})
        (fun n => if n = 0 then (5 : ℚ) else 3) ["baseline_comparison"]).outcome
      = Except.ok [("baseline_comparison", ⟨true, -2⟩)]) ∧ ((-2 : ℚ) < 0) := by
  constructor
  · with_unfolding_all decide
  · decide

/-- C4 (amended): provided the wall-clock readings taken during the run are
non-decreasing (which `time.time()` does not guarantee), every duration
recorded in the outcome mapping is non-negative. -/
theorem duration_nonneg_of_monotone_clock
    (mkRunner : ForgettingConfig → String → Except PyErr Json) (cfg : ForgettingConfig)
    (clock : Nat → ℚ) (exps : List String) (results : List (String × ResultEntry))
    (hmono : ∀ i j, i ≤ j → clock i ≤ clock j)
    (h : (runExperiments mkRunner cfg clock exps).outcome = Except.ok results) :
    ∀ p ∈ results, 0 ≤ p.2.duration := by
  exact aux_nonneg (mkRunner cfg) cfg clock hmono exps 0 [] [] results h
    (by intro q hq; simp at hq)

theorem duration_nonneg_of_monotone_clock_witness :
    ((∀ (i j : Nat), i ≤ j → (0 : ℚ) ≤ 0) ∧
      (runExperiments okRunner (mkConfig {}) (fun _ => (0 : ℚ))
          ["baseline_comparison"]).outcome
        = Except.ok [("baseline_comparison", ⟨true, 0⟩)]) ∧
    (∀ p ∈ [("baseline_comparison", (⟨true, (0 : ℚ)⟩ : ResultEntry))], 0 ≤ p.2.duration) :=
  ⟨⟨fun _ _ _ => le_refl 0, by with_unfolding_all decide⟩,
   duration_nonneg_of_monotone_clock okRunner (mkConfig {}) (fun _ => (0 : ℚ))
     ["baseline_comparison"] _ (fun _ _ _ => le_refl 0) (by with_unfolding_all decide)⟩

/-- C8: the configuration is built once from the parsed arguments
(src/main.py lines 122-129) and the runner is constructed once from it
(line 55); nothing in the harness writes any of its fields, so every
invocation across the request sequence observes the identical configuration
value. -/
theorem config_identical_across_invocations
    (mkRunner : ForgettingConfig → String → Except PyErr Json) (args : Args)
    (clock : Nat → ℚ) :
    ∀ p ∈ (runExperiments mkRunner (mkConfig args) clock args.experiments).calls,
      p.1 = mkConfig args := by
  exact aux_calls_cfg (mkRunner (mkConfig args)) (mkConfig args) clock args.experiments
    0 [] [] (by intro q hq; simp at hq)

theorem config_identical_across_invocations_witness :
    ((mkConfig {}, "baseline_comparison")
        ∈ (runExperiments okRunner (mkConfig {}) (fun _ => (0 : ℚ))
            (Args.experiments {})).calls) ∧
    (mkConfig {}, "baseline_comparison").1 = mkConfig {} :=
  ⟨by with_unfolding_all decide,
   config_identical_across_invocations okRunner {} (fun _ => (0 : ℚ))
     (mkConfig {}, "baseline_comparison") (by with_unfolding_all decide)⟩

/-- C10 (implicit): whenever `run_experiments` returns a mapping, every
entry is exactly the two-field record with `completed` equal to `True`
(src/main.py lines 73-76); the harness has no code path that stores
`completed = False`. -/
theorem run_experiments_entries_completed_true
    (mkRunner : ForgettingConfig → String → Except PyErr Json) (cfg : ForgettingConfig)
    (clock : Nat → ℚ) (exps : List String) (results : List (String × ResultEntry))
    (h : (runExperiments mkRunner cfg clock exps).outcome = Except.ok results) :
    ∀ p ∈ results, ∃ d, p.2 = ⟨true, d⟩ := by
  intro p hp
  have hc := aux_completed (mkRunner cfg) cfg clock exps 0 [] [] results h
    (by intro q hq; simp at hq) p hp
  rcases p with ⟨k, c, d⟩
  exact ⟨d, by rw [show c = true from hc]⟩

theorem run_experiments_entries_completed_true_witness :
    ((runExperiments okRunner (mkConfig {}) (fun _ => (0 : ℚ))
        ["baseline_comparison"]).outcome
      = Except.ok [("baseline_comparison", ⟨true, 0⟩)]) ∧
    (∀ p ∈ [("baseline_comparison", (⟨true, (0 : ℚ)⟩ : ResultEntry))],
      ∃ d, p.2 = ⟨true, d⟩) :=
  ⟨by with_unfolding_all decide,
   run_experiments_entries_completed_true okRunner (mkConfig {}) (fun _ => (0 : ℚ))
     ["baseline_comparison"] _ (by with_unfolding_all decide)⟩

/-- C7: each occurrence in the request sequence triggers its own runner
invocation (the call trace has one call per occurrence, in request order)
with its own pair of fresh clock reads, and appending a further occurrence
of an identifier overwrites that identifier's entry in the mapping with the
new occurrence's independently measured result, so the mapping keeps
exactly one entry per distinct identifier, carrying the last occurrence's
outcome (src/main.py lines 61-78: the dict assignment at line 73 keyed by
identifier). -/
theorem duplicate_occurrences_rerun_and_overwrite
    (mkRunner : ForgettingConfig → String → Except PyErr Json) (cfg : ForgettingConfig)
    (clock : Nat → ℚ) (exps : List String) (e : String)
    (hok : ∀ x ∈ exps ++ [e], (mkRunner cfg x).isOk = true) :
    ∃ results,
      (runExperiments mkRunner cfg clock exps).outcome = Except.ok results ∧
      (runExperiments mkRunner cfg clock (exps ++ [e])).calls
        = (exps ++ [e]).map (fun x => (cfg, x)) ∧
      (runExperiments mkRunner cfg clock (exps ++ [e])).outcome
        = Except.ok (assocSet results e
            ⟨true, clock (2 * exps.length + 1) - clock (2 * exps.length)⟩) ∧
      results.map Prod.fst = dedupFirst exps ∧
      (assocSet results e
          ⟨true, clock (2 * exps.length + 1) - clock (2 * exps.length)⟩).map Prod.fst
        = dedupFirst (exps ++ [e]) := by
  obtain ⟨results, hrun⟩ := aux_success (mkRunner cfg) cfg clock exps 0 [] []
      (fun x hx => hok x (List.mem_append.mpr (Or.inl hx)))
  have hrun' : runExperimentsAux (mkRunner cfg) cfg clock 0 [] [] exps
      = ⟨exps.map (fun x => (cfg, x)), Except.ok results⟩ := by simpa using hrun
  have happ := aux_append_overwrite (mkRunner cfg) cfg clock e exps 0 [] []
      (exps.map (fun x => (cfg, x))) results hrun'
      (hok e (List.mem_append.mpr (Or.inr (List.mem_singleton.mpr rfl))))
  rw [show (0 : Nat) + 2 * exps.length = 2 * exps.length from Nat.zero_add _] at happ
  have houtcome : (runExperiments mkRunner cfg clock exps).outcome = Except.ok results := by
    rw [runExperiments, hrun']
  refine ⟨results, houtcome, ?_, ?_, ?_, ?_⟩
  · rw [runExperiments, happ]
    simp
  · rw [runExperiments, happ]
  · have := aux_keys (mkRunner cfg) cfg clock exps 0 [] [] results houtcome
    simpa [dedupFirst] using this
  · have hout2 : (runExperiments mkRunner cfg clock (exps ++ [e])).outcome
        = Except.ok (assocSet results e
            ⟨true, clock (2 * exps.length + 1) - clock (2 * exps.length)⟩) := by
      rw [runExperiments, happ]
    have := aux_keys (mkRunner cfg) cfg clock (exps ++ [e]) 0 [] [] _ hout2
    simpa [dedupFirst] using this

theorem duplicate_occurrences_rerun_and_overwrite_witness :
    (∀ x ∈ ["baseline_comparison"] ++ ["baseline_comparison"],
      (okRunner (mkConfig {}) x).isOk = true) ∧
    (∃ results,
      (runExperiments okRunner (mkConfig {}) (fun _ => (0 : ℚ))
          ["baseline_comparison"]).outcome = Except.ok results ∧
      (runExperiments okRunner (mkConfig {}) (fun _ => (0 : ℚ))
          (["baseline_comparison"] ++ ["baseline_comparison"])).calls
        = (["baseline_comparison"] ++ ["baseline_comparison"]).map
            (fun x => (mkConfig {}, x)) ∧
      (runExperiments okRunner (mkConfig {}) (fun _ => (0 : ℚ))
          (["baseline_comparison"] ++ ["baseline_comparison"])).outcome
        = Except.ok (assocSet results "baseline_comparison"
            ⟨true, (fun _ => (0 : ℚ)) (2 * ["baseline_comparison"].length + 1)
              - (fun _ => (0 : ℚ)) (2 * ["baseline_comparison"].length)⟩) ∧
      results.map Prod.fst = dedupFirst ["baseline_comparison"] ∧
      (assocSet results "baseline_comparison"
          ⟨true, (fun _ => (0 : ℚ)) (2 * ["baseline_comparison"].length + 1)
            - (fun _ => (0 : ℚ)) (2 * ["baseline_comparison"].length)⟩).map Prod.fst
        = dedupFirst (["baseline_comparison"] ++ ["baseline_comparison"])) :=
  ⟨by decide,
   duplicate_occurrences_rerun_and_overwrite okRunner (mkConfig {}) (fun _ => (0 : ℚ))
     ["baseline_comparison"] "baseline_comparison" (by decide)⟩

/-- C6 counterexample: the console summary is printed only by
`generate_report` (src/main.py lines 103-107), which `main` reaches only
when `run_experiments` returned; a failing experiment makes the whole run
end with the propagated exception and no summary at all, and in a
successful run the summary has one line per distinct dict key, not one line
per requested occurrence (two requests of the same identifier give a single
line). -/
theorem summary_cex :
    (runAndReport cexRunner (mkConfig {}) (fun _ => (0 : ℚ))
        ["baseline_comparison", "broken_experiment", "temporal_evaluation"] []
      = Except.error (PyErr.experimentError "boom")) ∧
    ((runExperiments okRunner (mkConfig {}) (fun _ => (0 : ℚ))
        ["dup_experiment", "dup_experiment"]).outcome
      = Except.ok [("dup_experiment", ⟨true, 0⟩)]) ∧
    ((generateReport (mkConfig {}) [("dup_experiment", ⟨true, 0⟩)] []).2.length = 1) ∧
    (["dup_experiment", "dup_experiment"].length = 2) :=
  ⟨by with_unfolding_all rfl, by with_unfolding_all decide, rfl, rfl⟩

/-- C6 (amended): in a run where every invocation succeeds, the console
summary has one line per distinct requested identifier, in first-occurrence
request order, each line showing the identifier, the status text
`Completed`, and the duration rendered with two digits after the decimal
point; when an invocation fails, the run aborts before any summary is
printed. -/
theorem summary_lines_on_success
    (mkRunner : ForgettingConfig → String → Except PyErr Json) (cfg : ForgettingConfig)
    (clock : Nat → ℚ) (exps : List String) (fs : List (String × Json))
    (hok : ∀ x ∈ exps, (mkRunner cfg x).isOk = true) :
    ∃ results,
      (runExperiments mkRunner cfg clock exps).outcome = Except.ok results ∧
      results.map Prod.fst = dedupFirst exps ∧
      (generateReport cfg results fs).2 = results.map (fun p => summaryLine p.1 p.2) ∧
      (∀ p ∈ results, summaryLine p.1 p.2
        = "- " ++ p.1 ++ ": " ++ "Completed" ++ " in " ++ fmt2 p.2.duration ++ " seconds") ∧
      (∀ p ∈ results, ∃ a b, fmt2 p.2.duration = a ++ "." ++ b ∧ b.length = 2) := by
  obtain ⟨results, hrun⟩ := aux_success (mkRunner cfg) cfg clock exps 0 [] [] hok
  have houtcome : (runExperiments mkRunner cfg clock exps).outcome = Except.ok results := by
    rw [runExperiments, hrun]
  refine ⟨results, houtcome, ?_, rfl, ?_, fun p _ => fmt2_two_decimals p.2.duration⟩
  · have := aux_keys (mkRunner cfg) cfg clock exps 0 [] [] results houtcome
    simpa [dedupFirst] using this
  · intro p hp
    have hc := aux_completed (mkRunner cfg) cfg clock exps 0 [] [] results houtcome
      (by intro q hq; simp at hq) p hp
    simp [summaryLine, hc]

theorem summary_lines_on_success_witness :
    (∀ x ∈ ["baseline_comparison"], (okRunner (mkConfig {}) x).isOk = true) ∧
    (∃ results,
      (runExperiments okRunner (mkConfig {}) (fun _ => (0 : ℚ))
          ["baseline_comparison"]).outcome = Except.ok results ∧
      results.map Prod.fst = dedupFirst ["baseline_comparison"] ∧
      (generateReport (mkConfig {}) results []).2
        = results.map (fun p => summaryLine p.1 p.2) ∧
      (∀ p ∈ results, summaryLine p.1 p.2
        = "- " ++ p.1 ++ ": " ++ "Completed" ++ " in " ++ fmt2 p.2.duration ++ " seconds") ∧
      (∀ p ∈ results, ∃ a b, fmt2 p.2.duration = a ++ "." ++ b ∧ b.length = 2)) :=
  ⟨by decide,
   summary_lines_on_success okRunner (mkConfig {}) (fun _ => (0 : ℚ))
     ["baseline_comparison"] [] (by decide)⟩

/-- C5: in a run whose loop returned a mapping, `generate_report` stores
exactly one document, at the fixed path `<output_dir>/experiment_report.json`
(other paths are untouched); its `configuration` object holds exactly the six
configuration fields with the run's values and decodes back to the original
configuration exactly; and its `experiments` object has an entry for every
requested identifier with `completed` and `duration` fields present
(src/main.py lines 84-99). -/
theorem report_document_shape_and_roundtrip
    (mkRunner : ForgettingConfig → String → Except PyErr Json) (cfg : ForgettingConfig)
    (clock : Nat → ℚ) (exps : List String) (fs : List (String × Json))
    (results : List (String × ResultEntry))
    (h : (runExperiments mkRunner cfg clock exps).outcome = Except.ok results) :
    (generateReport cfg results fs).1
        = assocSet fs (reportPath cfg) (reportJson cfg results) ∧
    assocLookup (generateReport cfg results fs).1 (reportPath cfg)
        = some (reportJson cfg results) ∧
    (∀ p, p ≠ reportPath cfg →
        assocLookup (generateReport cfg results fs).1 p = assocLookup fs p) ∧
    jsonLookup (reportJson cfg results) "configuration" = some (configJson cfg) ∧
    (∃ l, configJson cfg = Json.obj l ∧ l.map Prod.fst
        = ["data_path", "output_dir", "num_users", "temporal_split", "test_days", "seed"]) ∧
    decodeConfig (configJson cfg) = some cfg ∧
    jsonLookup (reportJson cfg results) "experiments"
        = some (Json.obj (results.map (fun p => (p.1, entryJson p.2)))) ∧
    (∀ e ∈ exps, ∃ v : ResultEntry,
        assocLookup (results.map (fun p => (p.1, entryJson p.2))) e = some (entryJson v) ∧
        jsonLookup (entryJson v) "completed" = some (Json.bool v.completed) ∧
        jsonLookup (entryJson v) "duration" = some (Json.num v.duration)) := by
  refine ⟨rfl, assocLookup_assocSet_self fs (reportPath cfg) (reportJson cfg results),
    fun p hp => assocLookup_assocSet_ne fs (reportPath cfg) p (reportJson cfg results) hp,
    by simp [reportJson, jsonLookup, assocLookup],
    ⟨_, rfl, rfl⟩,
    decodeConfig_configJson cfg,
    by simp [reportJson, jsonLookup, assocLookup],
    ?_⟩
  intro e he
  have hkeys := aux_keys (mkRunner cfg) cfg clock exps 0 [] [] results h
  have hmem : e ∈ results.map Prod.fst := by
    rw [hkeys]
    simp only [List.map_nil, List.nil_append]
    exact (mem_dedupSeen e exps []).mpr ⟨he, by simp⟩
  obtain ⟨v, hv⟩ := assocLookup_of_mem_fst results e hmem
  refine ⟨v, ?_, by simp [entryJson, jsonLookup, assocLookup], by simp [entryJson, jsonLookup, assocLookup]⟩
  rw [assocLookup_map_value entryJson results e, hv]
  rfl

theorem report_document_shape_and_roundtrip_witness :
    ((runExperiments okRunner (mkConfig {}) (fun _ => (0 : ℚ))
        ["baseline_comparison"]).outcome
      = Except.ok [("baseline_comparison", ⟨true, 0⟩)]) ∧
    ((generateReport (mkConfig {}) [("baseline_comparison", ⟨true, 0⟩)] []).1
        = assocSet [] (reportPath (mkConfig {}))
            (reportJson (mkConfig {}) [("baseline_comparison", ⟨true, 0⟩)]) ∧
      assocLookup (generateReport (mkConfig {}) [("baseline_comparison", ⟨true, 0⟩)] []).1
          (reportPath (mkConfig {}))
        = some (reportJson (mkConfig {}) [("baseline_comparison", ⟨true, 0⟩)]) ∧
      (∀ p, p ≠ reportPath (mkConfig {}) →
        assocLookup (generateReport (mkConfig {}) [("baseline_comparison", ⟨true, 0⟩)] []).1 p
          = assocLookup [] p) ∧
      jsonLookup (reportJson (mkConfig {}) [("baseline_comparison", ⟨true, 0⟩)])
          "configuration" = some (configJson (mkConfig {})) ∧
      (∃ l, configJson (mkConfig {}) = Json.obj l ∧ l.map Prod.fst
        = ["data_path", "output_dir", "num_users", "temporal_split", "test_days", "seed"]) ∧
      decodeConfig (configJson (mkConfig {})) = some (mkConfig {}) ∧
      jsonLookup (reportJson (mkConfig {}) [("baseline_comparison", ⟨true, 0⟩)])
          "experiments"
        = some (Json.obj ([("baseline_comparison", (⟨true, (0 : ℚ)⟩ : ResultEntry))].map
            (fun p => (p.1, entryJson p.2)))) ∧
      (∀ e ∈ ["baseline_comparison"], ∃ v : ResultEntry,
        assocLookup ([("baseline_comparison", (⟨true, (0 : ℚ)⟩ : ResultEntry))].map
            (fun p => (p.1, entryJson p.2))) e = some (entryJson v) ∧
        jsonLookup (entryJson v) "completed" = some (Json.bool v.completed) ∧
        jsonLookup (entryJson v) "duration" = some (Json.num v.duration))) :=
  ⟨by with_unfolding_all decide,
   report_document_shape_and_roundtrip okRunner (mkConfig {}) (fun _ => (0 : ℚ))
     ["baseline_comparison"] [] [("baseline_comparison", ⟨true, 0⟩)]
     (by with_unfolding_all decide)⟩

/-- C3 counterexample: `generate_report` opens the final report path
directly in write mode and streams the document into it (src/main.py lines
96-99); opening truncates whatever complete report was there, so an I/O
failure at the first chunk write leaves an empty, truncated file at the
report path — neither the complete new report nor an absent/intact file, so
persistence is not all-or-nothing. -/
theorem report_write_cex_truncated_file :
    ((writeChunksFaulty
        [(reportPath (mkConfig {}), "previous complete report")]
        (reportPath (mkConfig {})) (reportChunks (mkConfig {}) []) 0).2
      = Except.error (PyErr.ioError "write interrupted")) ∧
    (assocLookup (writeChunksFaulty
        [(reportPath (mkConfig {}), "previous complete report")]
        (reportPath (mkConfig {})) (reportChunks (mkConfig {}) []) 0).1
        (reportPath (mkConfig {})) = some "") ∧
    ("" ≠ serializeReport (mkConfig {}) []) ∧
    ("" ≠ "previous complete report") := by
  refine ⟨by with_unfolding_all decide, by with_unfolding_all decide, ?_, by decide⟩
  with_unfolding_all decide

/-- C3 (amended): the write goes directly to the final report path, so only
a fault-free write is all-or-nothing: when the environment lets every chunk
write succeed, the complete serialized report is at the report path; an
interrupted write, however, leaves a truncated partial file in place (see
the counterexample) because there is no write-to-temporary-and-rename
step. -/
theorem report_write_complete_when_no_fault
    (cfg : ForgettingConfig) (results : List (String × ResultEntry))
    (store : List (String × String)) (fault : Nat)
    (h : (reportChunks cfg results).length ≤ fault) :
    (writeChunksFaulty store (reportPath cfg) (reportChunks cfg results) fault).2
        = Except.ok () ∧
    assocLookup (writeChunksFaulty store (reportPath cfg)
        (reportChunks cfg results) fault).1 (reportPath cfg)
        = some (serializeReport cfg results) := by
  constructor
  · simp [writeChunksFaulty, h]
  · simp only [writeChunksFaulty]
    rw [List.take_of_length_le h]
    exact assocLookup_assocSet_self store (reportPath cfg)
      (String.join (reportChunks cfg results))

theorem report_write_complete_when_no_fault_witness :
    ((reportChunks (mkConfig {}) []).length ≤ 8) ∧
    ((writeChunksFaulty [] (reportPath (mkConfig {}))
        (reportChunks (mkConfig {}) []) 8).2 = Except.ok () ∧
      assocLookup (writeChunksFaulty [] (reportPath (mkConfig {}))
          (reportChunks (mkConfig {}) []) 8).1 (reportPath (mkConfig {}))
        = some (serializeReport (mkConfig {}) [])) :=
  ⟨by decide,
   report_write_complete_when_no_fault (mkConfig {}) [] [] 8 (by decide)⟩

/-- C9: `os.makedirs(output_dir, exist_ok=True)` (src/main.py line 119) is
idempotent: if it succeeded once, invoking it again on the resulting
filesystem state succeeds and leaves the state unchanged. -/
theorem makedirs_idempotent (fsd fsd2 : FSDirs) (p : String)
    (h : makedirsExistOk fsd p = Except.ok fsd2) :
    makedirsExistOk fsd2 p = Except.ok fsd2 := by
  unfold makedirsExistOk at h ⊢
  split at h
  · exact absurd h (fun hc => Except.noConfusion hc)
  · next hcond =>
    cases Except.ok.inj h
    rw [if_neg hcond]
    rw [foldl_insertDir_no_new (parentChain p) _
      (fun d hd => mem_foldl_insertDir_self (parentChain p) fsd.dirs d hd)]

theorem makedirs_idempotent_witness :
    (makedirsExistOk ⟨[], []⟩ "./results" = Except.ok ⟨[".", "./results"], []⟩) ∧
    makedirsExistOk ⟨[".", "./results"], []⟩ "./results"
      = Except.ok ⟨[".", "./results"], []⟩ :=
  ⟨by with_unfolding_all decide,
   makedirs_idempotent ⟨[], []⟩ ⟨[".", "./results"], []⟩ "./results"
     (by with_unfolding_all decide)⟩
